import Mathlib

/-
  Shallow embedding of the exam-catalog / reference-reconciliation logic of
  `src/components/ExamView.tsx` (functions `appendExams`,
  `mergeReferencesToExams`, `handleSubmitExam`) over the data model of
  `src/types.ts`.

  JavaScript strings are modelled as Lean `String` (lists of unicode scalar
  values); JS objects `Record<string,string>` are modelled as association
  lists in enumeration order, with lookup returning the first binding.
  JS truthiness of an optional string field is `≠ none` together with
  `≠ some ""`.
-/

namespace ExamApp

/-- JS whitespace characters recognised by `\s` / `trim` (ASCII portion). -/
def jsWhitespaceChar (c : Char) : Bool :=
  c == ' ' || c == '\t' || c == '\n' || c == '\r' || c == '\x0b' || c == '\x0c'

/-- Test `leadsWith p l` : the char list `p` is an initial segment of `l`
(JS `String.startsWith` over char lists). -/
def leadsWith : List Char → List Char → Bool
  | [], _ => true
  | _ :: _, [] => false
  | p :: ps, c :: cs => p == c && leadsWith ps cs

/-- Test `containsSub sub l` : `sub` occurs contiguously inside `l`
(JS `String.includes` over char lists). -/
def containsSub (sub : List Char) : List Char → Bool
  | [] => sub.isEmpty
  | c :: cs => leadsWith sub (c :: cs) || containsSub sub cs

/-- JS `haystack.includes(needle)`. -/
def jsIncludes (haystack needle : String) : Bool :=
  containsSub needle.toList haystack.toList

/-- JS `s.startsWith(p)`. -/
def jsStartsWith (s p : String) : Bool :=
  leadsWith p.toList s.toList

/-- JS `s.toLowerCase()` (ASCII case mapping); defined over the char list so
it reduces in the kernel. -/
def jsToLower (s : String) : String :=
  ⟨s.toList.map Char.toLower⟩

/-- JS `s.trim()`: strip whitespace from both ends. -/
def jsTrim (s : String) : String :=
  ⟨((s.toList.dropWhile jsWhitespaceChar).reverse.dropWhile jsWhitespaceChar).reverse⟩

/-- Parse a (non-empty) run of decimal digits, accumulator style, as
JS `parseInt(digits, 10)` does. -/
def digitsToNat (acc : Nat) : List Char → Nat
  | [] => acc
  | c :: cs => digitsToNat (acc * 10 + (c.toNat - '0'.toNat)) cs

/-- First maximal digit run anywhere in the char list: JS `str.match(/(\d+)/)`
followed by `parseInt(match[1], 10)`. -/
def firstDigitRun : List Char → Option Nat
  | [] => none
  | c :: cs =>
    if c.isDigit then some (digitsToNat 0 ((c :: cs).takeWhile Char.isDigit))
    else firstDigitRun cs

/-- Attempt of `/Test\s*(\d+)/i` anchored at the head of the list. -/
def matchTestNumAt (l : List Char) : Option Nat :=
  match l with
  | t :: e :: s :: t2 :: rest =>
    if t.toLower == 't' && e.toLower == 'e' && s.toLower == 's' && t2.toLower == 't' then
      let afterWs := rest.dropWhile jsWhitespaceChar
      match afterWs with
      | d :: _ =>
        if d.isDigit then some (digitsToNat 0 (afterWs.takeWhile Char.isDigit)) else none
      | [] => none
    else none
  | _ => none

/-- Scan for the first position where `/Test\s*(\d+)/i` matches:
JS `title.match(/(?:Test|Test)\s*(\d+)/i)`. -/
def scanTestNum : List Char → Option Nat
  | [] => none
  | c :: cs =>
    match matchTestNumAt (c :: cs) with
    | some n => some n
    | none => scanTestNum cs

/-- Attempt of `/test-?(\d+)/i` anchored at the head of the list. -/
def matchIdNumAt (l : List Char) : Option Nat :=
  match l with
  | t :: e :: s :: t2 :: rest =>
    if t.toLower == 't' && e.toLower == 'e' && s.toLower == 's' && t2.toLower == 't' then
      let rest2 := match rest with
        | '-' :: r => r
        | r => r
      match rest2 with
      | d :: _ =>
        if d.isDigit then some (digitsToNat 0 (rest2.takeWhile Char.isDigit)) else none
      | [] => none
    else none
  | _ => none

/-- Scan for the first position where `/test-?(\d+)/i` matches:
JS `id.match(/test-?(\d+)/i)`. -/
def scanIdNum : List Char → Option Nat
  | [] => none
  | c :: cs =>
    match matchIdNumAt (c :: cs) with
    | some n => some n
    | none => scanIdNum cs

/-! ## Data model (`src/types.ts`) -/

/-- The `Option` of `types.ts` (an answer choice); renamed `Opt` to avoid the
Lean core name. -/
structure Opt where
  label : String
  text : String
deriving DecidableEq, Repr

/-- The `QuestionType` of `types.ts`. -/
inductive QuestionType where
  | multipleChoice
  | fillBlank
  | writing
  | unknown
deriving DecidableEq, Repr

/-- The `Question` of `types.ts`; optional JS fields become `Option`s. -/
structure Question where
  id : String
  number : Nat
  text : String
  type : QuestionType
  options : Option (List Opt) := none
  correctAnswer : Option String := none
  userAnswer : Option String := none
  explanation : Option String := none
  tapescript : Option String := none
  scriptContext : Option String := none
  context : Option String := none
deriving DecidableEq, Repr

/-- The `ExamSection` of `types.ts`. -/
structure ExamSection where
  id : String
  title : String
  instructions : String
  content : Option String := none
  tapescript : Option String := none
  audioSrc : Option String := none
  sharedOptions : Option (List Opt) := none
  questions : List Question
  passageAnalysis : Option String := none
deriving DecidableEq, Repr

/-- The `ExamData` of `types.ts`. -/
structure ExamData where
  id : String
  title : String
  sections : List ExamSection
deriving DecidableEq, Repr

/-- The `ReferenceData` of `types.ts`; the two `Record<string,string>` maps are
association lists in key-enumeration order. -/
structure ReferenceData where
  testId : String
  answers : List (String × String)
  tapescripts : List (String × String)
deriving DecidableEq, Repr

/-- The `ReferenceBatch` of `types.ts`. -/
structure ReferenceBatch where
  tests : List ReferenceData
deriving DecidableEq, Repr

/-- Lookup `m[k]` on a JS record modelled as an association list: value of the first
binding of `k`, if any. -/
def lookupStr (m : List (String × String)) (k : String) : Option String :=
  (m.find? (fun p => p.1 == k)).map (·.2)

/-- JS truthiness of `m[k]` for a string-valued record. -/
def truthyLookup (m : List (String × String)) (k : String) : Bool :=
  match lookupStr m k with
  | some v => !(v == "")
  | none => false

/-! ## Exam Catalog: `appendExams` (`ExamView.tsx` lines 624–639) -/

/-- Function `getNum` inside `appendExams`: first integer in the string, `999` when
none (`str.match(/(\d+)/)` with the 999 fallback). -/
def getNum (str : String) : Nat :=
  match firstDigitRun str.toList with
  | some n => n
  | none => 999

/-- The string `a.id || a.title`: `id` unless it is empty (falsy). -/
def idOrTitle (e : ExamData) : String :=
  if e.id == "" then e.title else e.id

/-- Function `appendExams`: drop incoming exams whose `id` already occurs in `prev`,
append the rest, and stable-sort the combined list ascending by
`getNum (idOrTitle _)` (JS `Array.prototype.sort` is stable and the
comparator is induced by this key). -/
def appendExams (prev newExams : List ExamData) : List ExamData :=
  let existingIds := prev.map (·.id)
  let uniqueNew := newExams.filter (fun e => !(existingIds.contains e.id))
  let combined := prev ++ uniqueNew
  combined.insertionSort (fun a b => getNum (idOrTitle a) ≤ getNum (idOrTitle b))

/-! ## Reference Reconciliation Engine
(`mergeReferencesToExams`, `ExamView.tsx` lines 849–929) -/

/-- Number extracted from a reference record:
`t.testId.toString().match(/(\d+)/)` then `parseInt`; `none` plays the role
of the JS `-1` sentinel (it never equals an extracted exam number). -/
def refNumOf (t : ReferenceData) : Option Nat :=
  firstDigitRun t.testId.toList

/-- Number extracted from an exam:
`exam.title.match(/(?:Test|Test)\s*(\d+)/i) || exam.id.match(/test-?(\d+)/i)`. -/
def examNumOf (exam : ExamData) : Option Nat :=
  match scanTestNum exam.title.toList with
  | some n => some n
  | none => scanIdNum exam.id.toList

/-- Flag `isWriting` for a section: lower-cased title contains `"writing"`, or some
question has type `writing`. -/
def isWritingSection (sec : ExamSection) : Bool :=
  jsIncludes (jsToLower sec.title) "writing"
    || sec.questions.any (fun q => q.type == QuestionType.writing)

/-- Flag `isListening` for a section: lower-cased title contains `"listening"`. -/
def isListeningSection (sec : ExamSection) : Bool :=
  jsIncludes (jsToLower sec.title) "listening"

/-- Key `matchedScriptKey`: first tapescript key related to the section title by
the bidirectional case-insensitive substring test. -/
def matchedScriptKeyOf (refData : ReferenceData) (sectionTitle : String) : Option String :=
  (refData.tapescripts.map (·.1)).find? (fun key =>
    jsIncludes (jsToLower sectionTitle) (jsToLower key)
      || jsIncludes (jsToLower key) (jsToLower sectionTitle))

/-- Transcription of `k.replace(/[^0-9]/g, '')`. -/
def stripNonDigits (s : String) : String :=
  ⟨s.toList.filter Char.isDigit⟩

/-- Key `specificScriptKey`: first tapescript key whose digit-stripped form equals
the question's number string. -/
def specificScriptKeyOf (refData : ReferenceData) (qNumStr : String) : Option String :=
  (refData.tapescripts.map (·.1)).find? (fun k => stripNonDigits k == qNumStr)

/-- The existing-answer test of the writing branch:
`!existingAns || existingAns.length < 5 || existingAns === 'A'`. -/
def answerIsPlaceholder (existing : Option String) : Bool :=
  match existing with
  | none => true
  | some existingAns =>
    existingAns == "" || existingAns.length < 5 || existingAns == "A"

/-- The answer-merge half of the per-question body
(`if (refData.answers[qNumStr]) { ... }`); the `== ""` tests mirror JS
truthiness guards on strings. -/
def mergeAnswerStep (refData : ReferenceData) (matchedScriptKey : Option String)
    (isWriting : Bool) (q : Question) : Question :=
  let qNumStr := toString q.number
  match lookupStr refData.answers qNumStr with
  | none => q
  | some newAns =>
    if newAns == "" then q
    else if isWriting then
      let q' :=
        if answerIsPlaceholder q.correctAnswer
        then { q with correctAnswer := some newAns }
        else q
      match matchedScriptKey with
      | some key =>
        if key == "" then q'
        else
          match lookupStr refData.tapescripts key with
          | some ts => if ts == "" then q' else { q' with correctAnswer := some ts }
          | none => q'
      | none => q'
    else { q with correctAnswer := some newAns }

/-- The script-merge half of the per-question body
(`if (specificScriptKey) { ... }`). -/
def mergeScriptStep (refData : ReferenceData) (sectionTitle : String)
    (isListening : Bool) (q : Question) : Question :=
  let qNumStr := toString q.number
  match specificScriptKeyOf refData qNumStr with
  | none => q
  | some specificScriptKey =>
    if specificScriptKey == "" then q
    else
      match lookupStr refData.tapescripts specificScriptKey with
      | none => q
      | some scriptContent =>
        if isListening && jsIncludes sectionTitle "Section A" then
          { q with tapescript := some scriptContent, explanation := some scriptContent }
        else if scriptContent.length > 50 then
          { q with scriptContext := some scriptContent }
        else
          { q with explanation := some scriptContent }

/-- Per-question body of the merge: answer merge, then script merge, exactly
in source order. -/
def mergeQuestion (refData : ReferenceData) (sectionTitle : String)
    (isWriting isListening : Bool) (matchedScriptKey : Option String)
    (q : Question) : Question :=
  mergeScriptStep refData sectionTitle isListening
    (mergeAnswerStep refData matchedScriptKey isWriting q)

/-- Per-section body of the merge: set the section `tapescript` when a truthy
key matched, then map the per-question body over the questions. -/
def mergeSection (refData : ReferenceData) (sec : ExamSection) : ExamSection :=
  let isWriting := isWritingSection sec
  let isListening := isListeningSection sec
  let matchedScriptKey := matchedScriptKeyOf refData sec.title
  let sec1 :=
    match matchedScriptKey with
    | some key =>
      if key == "" then sec
      else { sec with tapescript := lookupStr refData.tapescripts key }
    | none => sec
  { sec1 with
    questions :=
      sec.questions.map
        (mergeQuestion refData sec.title isWriting isListening matchedScriptKey) }

/-- Per-exam body of the merge: extract the exam number, find the first
matching reference record, and apply it to every section. -/
def mergeExam (referenceBatch : ReferenceBatch) (exam : ExamData) : ExamData :=
  match examNumOf exam with
  | none => exam
  | some examIdNum =>
    match referenceBatch.tests.find? (fun t => refNumOf t == some examIdNum) with
    | none => exam
    | some refData => { exam with sections := exam.sections.map (mergeSection refData) }

/-- Function `mergeReferencesToExams` as the transformation it applies to the catalog
(`setAvailableExams(prevExams => prevExams.map(...))`). -/
def mergeReferencesToExams (referenceBatch : ReferenceBatch)
    (prevExams : List ExamData) : List ExamData :=
  prevExams.map (mergeExam referenceBatch)

/-! ## Grading (`handleSubmitExam`, `ExamView.tsx` lines 958–986) -/

/-- Resolve a normalized user answer through the section's `sharedOptions`
word bank, as `handleSubmitExam` does before comparing. -/
def resolveUser (sec : ExamSection) (user : String) : String :=
  match sec.sharedOptions with
  | some opts =>
    if user.length > 1 then
      match opts.find? (fun o => jsToLower o.text == user) with
      | some o => jsToLower o.label
      | none => user
    else user
  | none => user

/-- The per-question correctness test of `handleSubmitExam` (the body guarded
by `q.type !== 'writing'`, after `total++`). -/
def isCorrect (sec : ExamSection) (q : Question) : Bool :=
  let user := jsTrim (jsToLower (q.userAnswer.getD ""))
  let ans := jsTrim (jsToLower (q.correctAnswer.getD ""))
  let matchedUser := resolveUser sec user
  if !(matchedUser == "") && !(ans == "") then
    matchedUser == ans || jsStartsWith ans (matchedUser ++ ".")
  else false

/-- The `handleSubmitExam` score: `(correct, total)` over all non-writing
questions. -/
def gradeExam (exam : ExamData) : Nat × Nat :=
  exam.sections.foldl
    (fun acc sec =>
      sec.questions.foldl
        (fun acc2 q =>
          if q.type == QuestionType.writing then acc2
          else ((if isCorrect sec q then acc2.1 + 1 else acc2.1), acc2.2 + 1))
        acc)
    (0, 0)

/-- The question stored at position `(i, j, k)` of a catalog. -/
def questionAt (exams : List ExamData) (i j k : Nat) : Option Question :=
  ((exams[i]?).bind (fun e => e.sections[j]?)).bind (fun s => s.questions[k]?)

/-! ## Derived forms used by the proofs -/

/-- What `mergeAnswerStep` does to `correctAnswer`, as a function of the
question's number and current `correctAnswer` alone. -/
def caFormula (refData : ReferenceData) (matchedScriptKey : Option String)
    (isWriting : Bool) (n : Nat) (ca : Option String) : Option String :=
  match lookupStr refData.answers (toString n) with
  | none => ca
  | some newAns =>
    if newAns == "" then ca
    else if isWriting then
      let ca1 :=
        if answerIsPlaceholder ca
        then some newAns
        else ca
      match matchedScriptKey with
      | some key =>
        if key == "" then ca1
        else
          match lookupStr refData.tapescripts key with
          | some ts => if ts == "" then ca1 else some ts
          | none => ca1
      | none => ca1
    else some newAns

/-- What `mergeScriptStep` does to the question's `tapescript`, as a function
of the question's number and current `tapescript` alone. -/
def tsFormula (refData : ReferenceData) (sectionTitle : String)
    (isListening : Bool) (n : Nat) (ts : Option String) : Option String :=
  match specificScriptKeyOf refData (toString n) with
  | none => ts
  | some specificScriptKey =>
    if specificScriptKey == "" then ts
    else
      match lookupStr refData.tapescripts specificScriptKey with
      | none => ts
      | some scriptContent =>
        if isListening && jsIncludes sectionTitle "Section A" then some scriptContent
        else ts

/-- Erase the four question fields the merge may write. -/
def scrubQuestion (q : Question) : Question :=
  { q with correctAnswer := none, tapescript := none,
           explanation := none, scriptContext := none }

/-- Erase the section field the merge may write and scrub its questions. -/
def scrubSection (sec : ExamSection) : ExamSection :=
  { sec with tapescript := none, questions := sec.questions.map scrubQuestion }

/-- Erase every merge-writable field of an exam. -/
def scrubExam (e : ExamData) : ExamData :=
  { e with sections := e.sections.map scrubSection }

/-- The `correctAnswer` and `tapescript` of a question when it is non-writing. -/
def nwProj (q : Question) : Option (Option String × Option String) :=
  if q.type == QuestionType.writing then none
  else some (q.correctAnswer, q.tapescript)

/-- The `correctAnswer` and `tapescript` of every non-writing question of a
catalog, position by position. -/
def nwFields (exams : List ExamData) :
    List (List (List (Option (Option String × Option String)))) :=
  exams.map fun e => e.sections.map fun s => s.questions.map nwProj

/-- The grading criterion exactly as the specification sentence words it
(no separate non-emptiness test on the correct answer): after normalizing
and label-resolving, the resolved user answer is non-empty and equals the
normalized correct answer or is a `"X."`-style head of it. -/
def specCorrect (sec : ExamSection) (q : Question) : Prop :=
  let user := jsTrim (jsToLower (q.userAnswer.getD ""))
  let ans := jsTrim (jsToLower (q.correctAnswer.getD ""))
  let resolved := resolveUser sec user
  resolved ≠ "" ∧ (resolved = ans ∨ jsStartsWith ans (resolved ++ ".") = true)

/-- The catalog sort key exactly as the specification sentence words it:
first integer of `id`, falling back to the first integer of `title` when the
`id` contains no digits, with "no number anywhere" sorting last. `none`
stands for the sorts-last case. -/
def claimSortKey (e : ExamData) : Option Nat :=
  match firstDigitRun e.id.toList with
  | some n => some n
  | none => firstDigitRun e.title.toList

/-- Relation for "sorted ascending by `claimSortKey`, no-number exams last" as a Boolean
relation. -/
def claimSortLe (a b : ExamData) : Bool :=
  match claimSortKey a, claimSortKey b with
  | _, none => true
  | none, some _ => false
  | some x, some y => x ≤ y

/-! ## Concrete fixtures for counterexamples and witnesses -/

/-- A minimal question. -/
def mkQ (n : Nat) (ty : QuestionType) (ca : Option String) : Question :=
  { id := "q" ++ toString n, number := n, text := "", type := ty, correctAnswer := ca }

/-- A minimal section. -/
def mkSec (title : String) (qs : List Question) : ExamSection :=
  { id := "s", title := title, instructions := "", questions := qs }

/-- A minimal exam. -/
def mkExam (i t : String) (ss : List ExamSection) : ExamData :=
  { id := i, title := t, sections := ss }

/-- A writing exam whose reference record has a matched section tapescript but
no answer entry for question 1. -/
def examC1 : ExamData :=
  mkExam "e1" "Model Test 1"
    [mkSec "Part IV Writing" [mkQ 1 QuestionType.writing none]]

def refdC1 : ReferenceData :=
  { testId := "1", answers := [], tapescripts := [("Writing", "FULL MODEL ESSAY")] }

def batchC1 : ReferenceBatch := ⟨[refdC1]⟩

/-- Like `examC1` but with an answer entry for question 1, so the tapescript
override fires. -/
def examC1w : ExamData :=
  mkExam "e1" "Model Test 1"
    [mkSec "Part IV Writing" [mkQ 1 QuestionType.writing (some "A")]]

def refdC1w : ReferenceData :=
  { testId := "1", answers := [("1", "A")],
    tapescripts := [("Writing", "FULL MODEL ESSAY")] }

def batchC1w : ReferenceBatch := ⟨[refdC1w]⟩

/-- A Section-A listening exam with a per-question tapescript keyed `"3"`. -/
def examC2 : ExamData :=
  mkExam "e1" "Model Test 1"
    [mkSec "Part I Listening Comprehension Section A"
      [mkQ 3 QuestionType.multipleChoice none]]

def refdC2 : ReferenceData :=
  { testId := "1", answers := [],
    tapescripts := [("3", "W: What time is it? M: Nine.")] }

def batchC2 : ReferenceBatch := ⟨[refdC2]⟩

/-- A writing exam whose reference has an empty-string answer entry and no
tapescripts; the existing `correctAnswer` is the short string `"xx"`. -/
def examC3 : ExamData :=
  mkExam "e3" "Model Test 2"
    [mkSec "Part IV Writing" [mkQ 1 QuestionType.writing (some "xx")]]

def refdC3 : ReferenceData :=
  { testId := "2", answers := [("1", "")], tapescripts := [] }

def batchC3 : ReferenceBatch := ⟨[refdC3]⟩

/-- A writing exam with the `"A"` placeholder answer and an incoming long
reference answer, no tapescripts. -/
def examC3w : ExamData :=
  mkExam "e3" "Model Test 2"
    [mkSec "Part IV Writing" [mkQ 1 QuestionType.writing (some "A")]]

def refdC3w : ReferenceData :=
  { testId := "2",
    answers := [("1", "A well-structured essay should address the prompt.")],
    tapescripts := [] }

def batchC3w : ReferenceBatch := ⟨[refdC3w]⟩

/-- An exam from whose title and id no test number is extractable. -/
def examC4 : ExamData := mkExam "midterm" "Midterm Exam" []

def refdC4 : ReferenceData :=
  { testId := "4", answers := [("1", "B")], tapescripts := [] }

def batchC4 : ReferenceBatch := ⟨[refdC4]⟩

/-- A non-empty digit-less `id` paired with a numeric `title`. -/
def examC5a : ExamData := mkExam "zz" "3" []

/-- An `id` whose first integer is 5. -/
def examC5b : ExamData := mkExam "x5x" "" []

def examT1 : ExamData := mkExam "test-1" "T" []

def examT2 : ExamData := mkExam "test-2" "T" []

def examT10 : ExamData := mkExam "test-10" "T" []

/-- A banked-cloze section whose word bank has label `B` for `ubiquitous`. -/
def secC6 : ExamSection :=
  { mkSec "Banked Cloze" [] with
    sharedOptions := some [{ label := "B", text := "ubiquitous" }] }

def qC6a : Question :=
  { mkQ 1 QuestionType.fillBlank (some "B") with userAnswer := some "ubiquitous" }

def qC6b : Question :=
  { mkQ 2 QuestionType.multipleChoice (some "B. ubiquitous") with
    userAnswer := some "b" }

def examC9a : ExamData := mkExam "dup" "Alpha" []

def examC9b : ExamData := mkExam "dup" "Beta" []

/-- A listening section whose title has `"section a"` only in upper case, with
a per-question tapescript keyed `"Q5"`. -/
def examC10 : ExamData :=
  mkExam "e" "Model Test 4"
    [mkSec "PART I LISTENING SECTION A" [mkQ 5 QuestionType.multipleChoice none]]

def refdC10 : ReferenceData :=
  { testId := "4", answers := [],
    tapescripts :=
      [("Q5", "M: This conversation runs well past fifty characters in total length.")] }

def batchC10 : ReferenceBatch := ⟨[refdC10]⟩

/-! ## General helper lemmas -/

theorem toDigitsCore_length_ge (b : Nat) :
    ∀ (fuel n : Nat) (ds : List Char), ds.length ≤ (Nat.toDigitsCore b fuel n ds).length := by
  intro fuel
  induction fuel with
  | zero => intro n ds; simp [Nat.toDigitsCore]
  | succ fuel ih =>
    intro n ds
    unfold Nat.toDigitsCore
    dsimp only
    split
    · simp
    · calc ds.length ≤ (Nat.digitChar (n % b) :: ds).length := by simp
        _ ≤ _ := ih (n / b) (Nat.digitChar (n % b) :: ds)

theorem toString_nat_ne_empty (n : Nat) : toString n ≠ "" := by
  show Nat.repr n ≠ ""
  unfold Nat.repr Nat.toDigits
  intro h
  have hlen : (Nat.toDigitsCore 10 (n + 1) n []).length = 0 := by
    have : (Nat.toDigitsCore 10 (n + 1) n []).asString = "" := h
    have := congrArg String.length this
    simpa [List.asString, String.length] using this
  unfold Nat.toDigitsCore at hlen
  dsimp only at hlen
  split at hlen
  · simp at hlen
  · have h1 := toDigitsCore_length_ge 10 n (n / 10) [Nat.digitChar (n % 10)]
    rw [hlen] at h1
    simp at h1

/-! ## Field-preservation and projection lemmas for the per-question merge -/

theorem mergeAnswerStep_number (r : ReferenceData) (mk : Option String) (w : Bool)
    (q : Question) : (mergeAnswerStep r mk w q).number = q.number := by
  dsimp only [mergeAnswerStep]; repeat' split
  all_goals rfl

theorem mergeAnswerStep_type (r : ReferenceData) (mk : Option String) (w : Bool)
    (q : Question) : (mergeAnswerStep r mk w q).type = q.type := by
  dsimp only [mergeAnswerStep]; repeat' split
  all_goals rfl

theorem mergeAnswerStep_tapescript (r : ReferenceData) (mk : Option String) (w : Bool)
    (q : Question) : (mergeAnswerStep r mk w q).tapescript = q.tapescript := by
  dsimp only [mergeAnswerStep]; repeat' split
  all_goals rfl

theorem mergeAnswerStep_explanation (r : ReferenceData) (mk : Option String) (w : Bool)
    (q : Question) : (mergeAnswerStep r mk w q).explanation = q.explanation := by
  dsimp only [mergeAnswerStep]; repeat' split
  all_goals rfl

theorem mergeAnswerStep_scriptContext (r : ReferenceData) (mk : Option String) (w : Bool)
    (q : Question) : (mergeAnswerStep r mk w q).scriptContext = q.scriptContext := by
  dsimp only [mergeAnswerStep]; repeat' split
  all_goals rfl

theorem mergeAnswerStep_ca (r : ReferenceData) (mk : Option String) (w : Bool)
    (q : Question) :
    (mergeAnswerStep r mk w q).correctAnswer = caFormula r mk w q.number q.correctAnswer := by
  dsimp only [mergeAnswerStep, caFormula]; repeat' split
  all_goals rfl

theorem mergeScriptStep_number (r : ReferenceData) (t : String) (li : Bool)
    (q : Question) : (mergeScriptStep r t li q).number = q.number := by
  dsimp only [mergeScriptStep]; repeat' split
  all_goals rfl

theorem mergeScriptStep_type (r : ReferenceData) (t : String) (li : Bool)
    (q : Question) : (mergeScriptStep r t li q).type = q.type := by
  dsimp only [mergeScriptStep]; repeat' split
  all_goals rfl

theorem mergeScriptStep_correctAnswer (r : ReferenceData) (t : String) (li : Bool)
    (q : Question) : (mergeScriptStep r t li q).correctAnswer = q.correctAnswer := by
  dsimp only [mergeScriptStep]; repeat' split
  all_goals rfl

theorem mergeScriptStep_ts (r : ReferenceData) (t : String) (li : Bool)
    (q : Question) :
    (mergeScriptStep r t li q).tapescript = tsFormula r t li q.number q.tapescript := by
  dsimp only [mergeScriptStep, tsFormula]; repeat' split
  all_goals rfl

theorem mergeQuestion_number (r : ReferenceData) (t : String) (w li : Bool)
    (mk : Option String) (q : Question) :
    (mergeQuestion r t w li mk q).number = q.number := by
  unfold mergeQuestion
  rw [mergeScriptStep_number, mergeAnswerStep_number]

theorem mergeQuestion_type (r : ReferenceData) (t : String) (w li : Bool)
    (mk : Option String) (q : Question) :
    (mergeQuestion r t w li mk q).type = q.type := by
  unfold mergeQuestion
  rw [mergeScriptStep_type, mergeAnswerStep_type]

theorem mergeQuestion_ca (r : ReferenceData) (t : String) (w li : Bool)
    (mk : Option String) (q : Question) :
    (mergeQuestion r t w li mk q).correctAnswer
      = caFormula r mk w q.number q.correctAnswer := by
  unfold mergeQuestion
  rw [mergeScriptStep_correctAnswer, mergeAnswerStep_ca]

theorem mergeQuestion_ts (r : ReferenceData) (t : String) (w li : Bool)
    (mk : Option String) (q : Question) :
    (mergeQuestion r t w li mk q).tapescript
      = tsFormula r t li q.number q.tapescript := by
  unfold mergeQuestion
  rw [mergeScriptStep_ts, mergeAnswerStep_number, mergeAnswerStep_tapescript]

/-! ## Case analysis of the `correctAnswer` / `tapescript` formulas -/

theorem caFormula_of_lookup_none (r : ReferenceData) (mk : Option String) (w : Bool)
    (n : Nat) (ca : Option String)
    (h : lookupStr r.answers (toString n) = none) :
    caFormula r mk w n ca = ca := by
  unfold caFormula; rw [h]

theorem caFormula_of_lookup_empty (r : ReferenceData) (mk : Option String) (w : Bool)
    (n : Nat) (ca : Option String)
    (h : lookupStr r.answers (toString n) = some "") :
    caFormula r mk w n ca = ca := by
  unfold caFormula; rw [h]; simp

theorem caFormula_not_writing (r : ReferenceData) (mk : Option String)
    (n : Nat) (ca : Option String) (a : String)
    (h : lookupStr r.answers (toString n) = some a) (ha : ¬ a = "") :
    caFormula r mk false n ca = some a := by
  unfold caFormula; rw [h]
  simp [ha]

theorem caFormula_writing_override (r : ReferenceData) (mk : Option String)
    (n : Nat) (ca : Option String) (a key ts : String)
    (h : lookupStr r.answers (toString n) = some a) (ha : ¬ a = "")
    (hk : mk = some key) (hkne : ¬ key = "")
    (hts : lookupStr r.tapescripts key = some ts) (htsne : ¬ ts = "") :
    caFormula r mk true n ca = some ts := by
  unfold caFormula; rw [h, hk]
  simp [ha, hkne, hts, htsne]

theorem caFormula_writing_no_override (r : ReferenceData) (mk : Option String)
    (n : Nat) (ca : Option String) (a : String)
    (h : lookupStr r.answers (toString n) = some a) (ha : ¬ a = "")
    (hno : ¬ ∃ key ts, mk = some key ∧ ¬ key = "" ∧
           lookupStr r.tapescripts key = some ts ∧ ¬ ts = "") :
    caFormula r mk true n ca = if answerIsPlaceholder ca then some a else ca := by
  unfold caFormula; rw [h]
  simp only [ha]
  rcases mk with _ | key
  · simp [ha]
  · by_cases hkne : key = ""
    · simp [ha, hkne]
    · rcases hts : lookupStr r.tapescripts key with _ | ts
      · simp [ha, hkne, hts]
      · by_cases htsne : ts = ""
        · simp [ha, hkne, hts, htsne]
        · exact absurd ⟨key, ts, rfl, hkne, hts, htsne⟩ hno

theorem caFormula_idem (r : ReferenceData) (mk : Option String) (w : Bool) (n : Nat)
    (ca : Option String) :
    caFormula r mk w n (caFormula r mk w n ca) = caFormula r mk w n ca := by
  rcases hl : lookupStr r.answers (toString n) with _ | a
  · rw [caFormula_of_lookup_none r mk w n ca hl,
        caFormula_of_lookup_none r mk w n ca hl]
  · by_cases ha : a = ""
    · subst ha
      rw [caFormula_of_lookup_empty r mk w n ca hl,
          caFormula_of_lookup_empty r mk w n ca hl]
    · cases w
      · rw [caFormula_not_writing r mk n ca a hl ha,
            caFormula_not_writing r mk n (some a) a hl ha]
      · by_cases hov : ∃ key ts, mk = some key ∧ ¬ key = "" ∧
            lookupStr r.tapescripts key = some ts ∧ ¬ ts = ""
        · obtain ⟨key, ts, hk, hkne, hts, htsne⟩ := hov
          rw [caFormula_writing_override r mk n ca a key ts hl ha hk hkne hts htsne,
              caFormula_writing_override r mk n (some ts) a key ts hl ha hk hkne hts htsne]
        · rw [caFormula_writing_no_override r mk n ca a hl ha hov,
              caFormula_writing_no_override r mk n _ a hl ha hov]
          by_cases hp : answerIsPlaceholder ca = true
          · simp only [hp, if_true]
            by_cases hp2 : answerIsPlaceholder (some a) = true <;> simp [hp2]
          · simp_all

theorem tsFormula_cases (r : ReferenceData) (t : String) (li : Bool) (n : Nat)
    (ts : Option String) :
    tsFormula r t li n ts = ts ∨
      ∃ content, tsFormula r t li n ts = some content ∧
        ∀ ts', tsFormula r t li n ts' = some content := by
  unfold tsFormula
  rcases hk : specificScriptKeyOf r (toString n) with _ | key
  · exact Or.inl rfl
  · by_cases hkne : key = ""
    · simp [hkne]
    · rcases hc : lookupStr r.tapescripts key with _ | content
      · simp [hkne, hc]
      · by_cases hsa : (li && jsIncludes t "Section A") = true
        · refine Or.inr ⟨content, ?_, ?_⟩
          · simp [hkne, hc, hsa]
          · intro ts'; simp [hkne, hc, hsa]
        · simp [hkne, hc, hsa]

theorem tsFormula_idem (r : ReferenceData) (t : String) (li : Bool) (n : Nat)
    (ts : Option String) :
    tsFormula r t li n (tsFormula r t li n ts) = tsFormula r t li n ts := by
  rcases tsFormula_cases r t li n ts with h | ⟨content, h, hall⟩
  · rw [h, h]
  · rw [h, hall (some content)]

theorem mergeSection_title (r : ReferenceData) (sec : ExamSection) :
    (mergeSection r sec).title = sec.title := by
  dsimp only [mergeSection]; repeat' split
  all_goals rfl

theorem mergeSection_questions (r : ReferenceData) (sec : ExamSection) :
    (mergeSection r sec).questions =
      sec.questions.map
        (mergeQuestion r sec.title (isWritingSection sec) (isListeningSection sec)
          (matchedScriptKeyOf r sec.title)) := by
  dsimp only [mergeSection]

theorem mergeSection_tapescript_of_found (r : ReferenceData) (sec : ExamSection)
    (key : String) (hmk : matchedScriptKeyOf r sec.title = some key) (hkey : ¬ key = "") :
    (mergeSection r sec).tapescript = lookupStr r.tapescripts key := by
  dsimp only [mergeSection]
  rw [hmk]
  simp [hkey]

theorem isWritingSection_mergeSection (r : ReferenceData) (sec : ExamSection) :
    isWritingSection (mergeSection r sec) = isWritingSection sec := by
  unfold isWritingSection
  rw [mergeSection_title, mergeSection_questions, List.any_map]
  have h : ((fun q => q.type == QuestionType.writing) ∘
      (mergeQuestion r sec.title (isWritingSection sec) (isListeningSection sec)
        (matchedScriptKeyOf r sec.title)))
      = (fun q => q.type == QuestionType.writing) := by
    funext q
    simp [Function.comp, mergeQuestion_type]
  rw [h]

theorem isListeningSection_mergeSection (r : ReferenceData) (sec : ExamSection) :
    isListeningSection (mergeSection r sec) = isListeningSection sec := by
  unfold isListeningSection
  rw [mergeSection_title]

theorem mergeExam_id (rb : ReferenceBatch) (e : ExamData) :
    (mergeExam rb e).id = e.id := by
  dsimp only [mergeExam]; repeat' split
  all_goals rfl

theorem mergeExam_title (rb : ReferenceBatch) (e : ExamData) :
    (mergeExam rb e).title = e.title := by
  dsimp only [mergeExam]; repeat' split
  all_goals rfl

theorem examNumOf_mergeExam (rb : ReferenceBatch) (e : ExamData) :
    examNumOf (mergeExam rb e) = examNumOf e := by
  unfold examNumOf
  rw [mergeExam_id, mergeExam_title]

theorem mergeExam_of_none (rb : ReferenceBatch) (e : ExamData)
    (hn : examNumOf e = none) : mergeExam rb e = e := by
  unfold mergeExam
  rw [hn]

theorem mergeExam_of_no_match (rb : ReferenceBatch) (e : ExamData) (n : Nat)
    (hn : examNumOf e = some n)
    (hf : rb.tests.find? (fun t => refNumOf t == some n) = none) :
    mergeExam rb e = e := by
  unfold mergeExam
  rw [hn]
  dsimp only
  rw [hf]

theorem mergeExam_of_match (rb : ReferenceBatch) (e : ExamData) (n : Nat)
    (r : ReferenceData)
    (hn : examNumOf e = some n)
    (hf : rb.tests.find? (fun t => refNumOf t == some n) = some r) :
    mergeExam rb e = { e with sections := e.sections.map (mergeSection r) } := by
  unfold mergeExam
  rw [hn]
  dsimp only
  rw [hf]

theorem questionAt_merge (rb : ReferenceBatch) (exams : List ExamData)
    (i j k : Nat) (exam : ExamData) (sec : ExamSection) (q : Question)
    (n : Nat) (refData : ReferenceData)
    (hi : exams[i]? = some exam)
    (hn : examNumOf exam = some n)
    (hf : rb.tests.find? (fun t => refNumOf t == some n) = some refData)
    (hj : exam.sections[j]? = some sec)
    (hk : sec.questions[k]? = some q) :
    questionAt (mergeReferencesToExams rb exams) i j k
      = some (mergeQuestion refData sec.title (isWritingSection sec)
          (isListeningSection sec) (matchedScriptKeyOf refData sec.title) q) := by
  unfold questionAt mergeReferencesToExams
  rw [List.getElem?_map, hi, Option.map_some']
  rw [mergeExam_of_match rb exam n refData hn hf]
  show ((exam.sections.map (mergeSection refData))[j]?.bind fun s => s.questions[k]?) = _
  rw [List.getElem?_map, hj, Option.map_some']
  show ((mergeSection refData sec).questions[k]?) = _
  rw [mergeSection_questions, List.getElem?_map, hk, Option.map_some']

/-! ### Idempotence machinery (claim C7) -/

theorem nwProj_mergeQuestion_idem (r : ReferenceData) (t : String) (w li : Bool)
    (mk : Option String) (q : Question) :
    nwProj (mergeQuestion r t w li mk (mergeQuestion r t w li mk q))
      = nwProj (mergeQuestion r t w li mk q) := by
  unfold nwProj
  rw [mergeQuestion_type, mergeQuestion_type]
  by_cases hw : (q.type == QuestionType.writing) = true
  · simp [hw]
  · simp only [hw, if_false]
    have hca : (mergeQuestion r t w li mk (mergeQuestion r t w li mk q)).correctAnswer
        = (mergeQuestion r t w li mk q).correctAnswer := by
      simp only [mergeQuestion_ca, mergeQuestion_number]
      exact caFormula_idem r mk w q.number q.correctAnswer
    have hts : (mergeQuestion r t w li mk (mergeQuestion r t w li mk q)).tapescript
        = (mergeQuestion r t w li mk q).tapescript := by
      simp only [mergeQuestion_ts, mergeQuestion_number]
      exact tsFormula_idem r t li q.number q.tapescript
    rw [hca, hts]

theorem nwSection_merge_idem (r : ReferenceData) (s : ExamSection) :
    (mergeSection r (mergeSection r s)).questions.map nwProj
      = (mergeSection r s).questions.map nwProj := by
  rw [mergeSection_questions r (mergeSection r s), mergeSection_title,
      isWritingSection_mergeSection, isListeningSection_mergeSection,
      mergeSection_questions r s]
  simp only [List.map_map]
  apply List.map_congr_left
  intro q _
  exact nwProj_mergeQuestion_idem r s.title (isWritingSection s) (isListeningSection s)
    (matchedScriptKeyOf r s.title) q

theorem nwExam_merge_idem (rb : ReferenceBatch) (e : ExamData) :
    (mergeExam rb (mergeExam rb e)).sections.map (fun s => s.questions.map nwProj)
      = (mergeExam rb e).sections.map (fun s => s.questions.map nwProj) := by
  rcases hn : examNumOf e with _ | n
  · rw [mergeExam_of_none rb e hn, mergeExam_of_none rb e hn]
  · rcases hf : rb.tests.find? (fun t => refNumOf t == some n) with _ | r
    · rw [mergeExam_of_no_match rb e n hn hf, mergeExam_of_no_match rb e n hn hf]
    · have h1 := mergeExam_of_match rb e n r hn hf
      have hn2 : examNumOf (mergeExam rb e) = some n := by
        rw [examNumOf_mergeExam, hn]
      have h2 := mergeExam_of_match rb (mergeExam rb e) n r hn2 hf
      rw [h2, h1]
      dsimp only
      simp only [List.map_map]
      apply List.map_congr_left
      intro s _
      exact nwSection_merge_idem r s

/-! ### Frame machinery (claim C8) -/

theorem scrubQuestion_mergeAnswerStep (r : ReferenceData) (mk : Option String)
    (w : Bool) (q : Question) :
    scrubQuestion (mergeAnswerStep r mk w q) = scrubQuestion q := by
  dsimp only [mergeAnswerStep, scrubQuestion]; repeat' split
  all_goals rfl

theorem scrubQuestion_mergeScriptStep (r : ReferenceData) (t : String)
    (li : Bool) (q : Question) :
    scrubQuestion (mergeScriptStep r t li q) = scrubQuestion q := by
  dsimp only [mergeScriptStep, scrubQuestion]; repeat' split
  all_goals rfl

theorem scrubQuestion_mergeQuestion (r : ReferenceData) (t : String) (w li : Bool)
    (mk : Option String) (q : Question) :
    scrubQuestion (mergeQuestion r t w li mk q) = scrubQuestion q := by
  unfold mergeQuestion
  rw [scrubQuestion_mergeScriptStep, scrubQuestion_mergeAnswerStep]

theorem mergeSection_id (r : ReferenceData) (sec : ExamSection) :
    (mergeSection r sec).id = sec.id := by
  dsimp only [mergeSection]; repeat' split
  all_goals rfl

theorem mergeSection_instructions (r : ReferenceData) (sec : ExamSection) :
    (mergeSection r sec).instructions = sec.instructions := by
  dsimp only [mergeSection]; repeat' split
  all_goals rfl

theorem mergeSection_content (r : ReferenceData) (sec : ExamSection) :
    (mergeSection r sec).content = sec.content := by
  dsimp only [mergeSection]; repeat' split
  all_goals rfl

theorem mergeSection_audioSrc (r : ReferenceData) (sec : ExamSection) :
    (mergeSection r sec).audioSrc = sec.audioSrc := by
  dsimp only [mergeSection]; repeat' split
  all_goals rfl

theorem mergeSection_sharedOptions (r : ReferenceData) (sec : ExamSection) :
    (mergeSection r sec).sharedOptions = sec.sharedOptions := by
  dsimp only [mergeSection]; repeat' split
  all_goals rfl

theorem mergeSection_passageAnalysis (r : ReferenceData) (sec : ExamSection) :
    (mergeSection r sec).passageAnalysis = sec.passageAnalysis := by
  dsimp only [mergeSection]; repeat' split
  all_goals rfl

theorem scrubSection_mergeSection (r : ReferenceData) (sec : ExamSection) :
    scrubSection (mergeSection r sec) = scrubSection sec := by
  have hq : (mergeSection r sec).questions.map scrubQuestion
      = sec.questions.map scrubQuestion := by
    rw [mergeSection_questions]
    simp only [List.map_map]
    apply List.map_congr_left
    intro q _
    exact scrubQuestion_mergeQuestion r sec.title (isWritingSection sec)
      (isListeningSection sec) (matchedScriptKeyOf r sec.title) q
  unfold scrubSection
  rw [mergeSection_id, mergeSection_title, mergeSection_instructions,
      mergeSection_content, mergeSection_audioSrc, mergeSection_sharedOptions,
      mergeSection_passageAnalysis, hq]

theorem scrubExam_mergeExam (rb : ReferenceBatch) (e : ExamData) :
    scrubExam (mergeExam rb e) = scrubExam e := by
  rcases hn : examNumOf e with _ | n
  · rw [mergeExam_of_none rb e hn]
  · rcases hf : rb.tests.find? (fun t => refNumOf t == some n) with _ | r
    · rw [mergeExam_of_no_match rb e n hn hf]
    · rw [mergeExam_of_match rb e n r hn hf]
      unfold scrubExam
      dsimp only
      simp only [List.map_map]
      have : (fun s => scrubSection (mergeSection r s)) = scrubSection := by
        funext s
        exact scrubSection_mergeSection r s
      rw [Function.comp_def, this]

theorem specificScriptKey_ne_empty (r : ReferenceData) (n : Nat) (sk : String)
    (hsk : specificScriptKeyOf r (toString n) = some sk) : ¬ sk = "" := by
  intro hemp
  subst hemp
  have := List.find?_some hsk
  have heq : stripNonDigits "" = toString n := by
    simpa using this
  have : toString n = "" := heq.symm
  exact toString_nat_ne_empty n this

theorem mergeScriptStep_of_sectionA (r : ReferenceData) (t : String) (li : Bool)
    (q : Question) (sk content : String)
    (hsk : specificScriptKeyOf r (toString q.number) = some sk)
    (hc : lookupStr r.tapescripts sk = some content)
    (hcond : (li && jsIncludes t "Section A") = true) :
    mergeScriptStep r t li q
      = { q with tapescript := some content, explanation := some content } := by
  have hskne := specificScriptKey_ne_empty r q.number sk hsk
  dsimp only [mergeScriptStep]
  rw [hsk]
  simp [hskne, hc, hcond]

theorem mergeScriptStep_of_long (r : ReferenceData) (t : String) (li : Bool)
    (q : Question) (sk content : String)
    (hsk : specificScriptKeyOf r (toString q.number) = some sk)
    (hc : lookupStr r.tapescripts sk = some content)
    (hcond : (li && jsIncludes t "Section A") = false)
    (hlen : content.length > 50) :
    mergeScriptStep r t li q = { q with scriptContext := some content } := by
  have hskne := specificScriptKey_ne_empty r q.number sk hsk
  dsimp only [mergeScriptStep]
  rw [hsk]
  simp [hskne, hc, hcond, hlen]

theorem mergeScriptStep_of_short (r : ReferenceData) (t : String) (li : Bool)
    (q : Question) (sk content : String)
    (hsk : specificScriptKeyOf r (toString q.number) = some sk)
    (hc : lookupStr r.tapescripts sk = some content)
    (hcond : (li && jsIncludes t "Section A") = false)
    (hlen : ¬ content.length > 50) :
    mergeScriptStep r t li q = { q with explanation := some content } := by
  have hskne := specificScriptKey_ne_empty r q.number sk hsk
  dsimp only [mergeScriptStep]
  rw [hsk]
  simp [hskne, hc, hcond, hlen]

/-- C1 counterexample: in `examC1` the writing section's tapescript is found in
Step 2 (section `tapescript` is set to it), yet question 1, having no entry in
the reference's `answers`, keeps `correctAnswer = none` instead of receiving
the tapescript text as the claim demands. -/
theorem C1_counterexample :
    (mergeReferencesToExams batchC1 [examC1]).map
        (fun e => e.sections.map (fun s => (s.tapescript, s.questions.map (·.correctAnswer))))
      = [[(some "FULL MODEL ESSAY", [none])]] := by
  decide

/-- C1 (amended): for a matched exam and a writing section whose Step-2
tapescript was found (non-empty key and text), the tapescript text overrides
`correctAnswer` exactly for the questions whose number has a non-empty entry
in the reference's `answers` map; a question with no entry keeps its
`correctAnswer`. -/
theorem C1_writing_override_scope
    (rb : ReferenceBatch) (exams : List ExamData) (i j k : Nat)
    (exam : ExamData) (sec : ExamSection) (q : Question)
    (n : Nat) (refData : ReferenceData) (key ts : String)
    (hi : exams[i]? = some exam)
    (hn : examNumOf exam = some n)
    (hf : rb.tests.find? (fun t => refNumOf t == some n) = some refData)
    (hj : exam.sections[j]? = some sec)
    (hw : isWritingSection sec = true)
    (hk : sec.questions[k]? = some q)
    (hmk : matchedScriptKeyOf refData sec.title = some key)
    (hkey : ¬ key = "")
    (hts : lookupStr refData.tapescripts key = some ts)
    (htsne : ¬ ts = "") :
    (∀ a, lookupStr refData.answers (toString q.number) = some a → ¬ a = "" →
       (questionAt (mergeReferencesToExams rb exams) i j k).map (·.correctAnswer)
         = some (some ts)) ∧
    (lookupStr refData.answers (toString q.number) = none →
       (questionAt (mergeReferencesToExams rb exams) i j k).map (·.correctAnswer)
         = some q.correctAnswer) := by
  have hq := questionAt_merge rb exams i j k exam sec q n refData hi hn hf hj hk
  constructor
  · intro a hans hane
    rw [hq, Option.map_some', mergeQuestion_ca, hw,
        caFormula_writing_override refData (matchedScriptKeyOf refData sec.title)
          q.number q.correctAnswer a key ts hans hane hmk hkey hts htsne]
  · intro hnone
    rw [hq, Option.map_some', mergeQuestion_ca,
        caFormula_of_lookup_none refData (matchedScriptKeyOf refData sec.title)
          (isWritingSection sec) q.number q.correctAnswer hnone]

/-- C1 witness: concrete writing exam with an answers entry — the merged
question's `correctAnswer` is the Step-2 tapescript text. -/
theorem C1_witness :
    (questionAt (mergeReferencesToExams batchC1w [examC1w]) 0 0 0).map (·.correctAnswer)
      = some (some "FULL MODEL ESSAY") :=
  (C1_writing_override_scope batchC1w [examC1w] 0 0 0 examC1w
      (mkSec "Part IV Writing" [mkQ 1 QuestionType.writing (some "A")])
      (mkQ 1 QuestionType.writing (some "A")) 1 refdC1w "Writing" "FULL MODEL ESSAY"
      rfl rfl rfl rfl (by decide) rfl rfl (by decide) rfl (by decide)).1
    "A" rfl (by decide)

/-- C3 counterexample: the reference's `answers` map of `refdC3` has the entry
`"1" ↦ ""`; the existing `correctAnswer` `"xx"` is shorter than 5 characters,
so the claim demands it be replaced by the incoming `""`, but the merge leaves
it unchanged (the code skips JS-falsy answer values). -/
theorem C3_counterexample :
    lookupStr refdC3.answers "1" = some "" ∧
    matchedScriptKeyOf refdC3 "Part IV Writing" = none ∧
    (questionAt (mergeReferencesToExams batchC3 [examC3]) 0 0 0).map (·.correctAnswer)
      = some (some "xx") :=
  ⟨rfl, rfl, rfl⟩

/-- C3 (amended): for a matched exam, a writing section with no Step-2
tapescript key, and a question whose number has a *non-empty* entry in the
reference's `answers`, the reconciled `correctAnswer` is the incoming answer
when the existing one is absent, shorter than 5 characters or the literal
`"A"`, and the existing one otherwise. -/
theorem C3_writing_answer_rule
    (rb : ReferenceBatch) (exams : List ExamData) (i j k : Nat)
    (exam : ExamData) (sec : ExamSection) (q : Question)
    (n : Nat) (refData : ReferenceData) (a : String)
    (hi : exams[i]? = some exam)
    (hn : examNumOf exam = some n)
    (hf : rb.tests.find? (fun t => refNumOf t == some n) = some refData)
    (hj : exam.sections[j]? = some sec)
    (hw : isWritingSection sec = true)
    (hk : sec.questions[k]? = some q)
    (hmk : matchedScriptKeyOf refData sec.title = none)
    (hans : lookupStr refData.answers (toString q.number) = some a)
    (hane : ¬ a = "") :
    (questionAt (mergeReferencesToExams rb exams) i j k).map (·.correctAnswer)
      = some (if answerIsPlaceholder q.correctAnswer then some a else q.correctAnswer) := by
  have hq := questionAt_merge rb exams i j k exam sec q n refData hi hn hf hj hk
  rw [hq, Option.map_some', mergeQuestion_ca, hw,
      caFormula_writing_no_override refData (matchedScriptKeyOf refData sec.title)
        q.number q.correctAnswer a hans hane]
  rintro ⟨key, ts, hkey, -⟩
  rw [hmk] at hkey
  exact Option.noConfusion hkey

/-- C3 witness: the `"A"` placeholder is replaced by the incoming long
reference answer. -/
theorem C3_witness :
    (questionAt (mergeReferencesToExams batchC3w [examC3w]) 0 0 0).map (·.correctAnswer)
      = some (some "A well-structured essay should address the prompt.") := by
  have h := C3_writing_answer_rule batchC3w [examC3w] 0 0 0 examC3w
    (mkSec "Part IV Writing" [mkQ 1 QuestionType.writing (some "A")])
    (mkQ 1 QuestionType.writing (some "A")) 2 refdC3w
    "A well-structured essay should address the prompt."
    rfl rfl rfl rfl (by decide) rfl rfl rfl (by decide)
  simpa using h

/-- C2: for a matched exam, a question whose number-string equals some
tapescript key with non-digits stripped receives the key's content: both
`tapescript` and `explanation` when the section is listening and its title
contains `"Section A"`; otherwise `scriptContext` when the content is longer
than 50 characters, and `explanation` otherwise. -/
theorem C2_specific_script_assignment
    (rb : ReferenceBatch) (exams : List ExamData) (i j k : Nat)
    (exam : ExamData) (sec : ExamSection) (q : Question)
    (n : Nat) (refData : ReferenceData) (sk content : String)
    (hi : exams[i]? = some exam)
    (hn : examNumOf exam = some n)
    (hf : rb.tests.find? (fun t => refNumOf t == some n) = some refData)
    (hj : exam.sections[j]? = some sec)
    (hk : sec.questions[k]? = some q)
    (hsk : specificScriptKeyOf refData (toString q.number) = some sk)
    (hc : lookupStr refData.tapescripts sk = some content) :
    ((isListeningSection sec && jsIncludes sec.title "Section A") = true →
       (questionAt (mergeReferencesToExams rb exams) i j k).map
           (fun x => (x.tapescript, x.explanation))
         = some (some content, some content)) ∧
    ((isListeningSection sec && jsIncludes sec.title "Section A") = false →
       (content.length > 50 →
          (questionAt (mergeReferencesToExams rb exams) i j k).map (·.scriptContext)
            = some (some content)) ∧
       (¬ content.length > 50 →
          (questionAt (mergeReferencesToExams rb exams) i j k).map (·.explanation)
            = some (some content))) := by
  have hq := questionAt_merge rb exams i j k exam sec q n refData hi hn hf hj hk
  have hsk' : specificScriptKeyOf refData
      (toString (mergeAnswerStep refData (matchedScriptKeyOf refData sec.title)
        (isWritingSection sec) q).number) = some sk := by
    rw [mergeAnswerStep_number]; exact hsk
  refine ⟨fun hcond => ?_, fun hcond => ⟨fun hlen => ?_, fun hlen => ?_⟩⟩
  · rw [hq, Option.map_some']
    unfold mergeQuestion
    rw [mergeScriptStep_of_sectionA refData sec.title (isListeningSection sec) _
        sk content hsk' hc hcond]
  · rw [hq, Option.map_some']
    unfold mergeQuestion
    rw [mergeScriptStep_of_long refData sec.title (isListeningSection sec) _
        sk content hsk' hc hcond hlen]
  · rw [hq, Option.map_some']
    unfold mergeQuestion
    rw [mergeScriptStep_of_short refData sec.title (isListeningSection sec) _
        sk content hsk' hc hcond hlen]

/-- C2 witness: in the Section-A listening fixture the matched per-question
script lands on both `tapescript` and `explanation` of question 3. -/
theorem C2_witness :
    (questionAt (mergeReferencesToExams batchC2 [examC2]) 0 0 0).map
        (fun x => (x.tapescript, x.explanation))
      = some (some "W: What time is it? M: Nine.", some "W: What time is it? M: Nine.") :=
  (C2_specific_script_assignment batchC2 [examC2] 0 0 0 examC2
      (mkSec "Part I Listening Comprehension Section A" [mkQ 3 QuestionType.multipleChoice none])
      (mkQ 3 QuestionType.multipleChoice none) 1 refdC2 "3" "W: What time is it? M: Nine."
      rfl rfl rfl rfl rfl rfl rfl).1 (by decide)

/-- C4: per-exam matching of the reconciliation. An exam with no extractable
number is returned unchanged; an exam whose number matches no reference
record is returned unchanged; when a match exists, exactly the first matching
record is applied. -/
theorem C4_match_or_skip (rb : ReferenceBatch) (exams : List ExamData) :
    (∀ (i : Nat) (exam : ExamData), exams[i]? = some exam → examNumOf exam = none →
        (mergeReferencesToExams rb exams)[i]? = some exam) ∧
    (∀ (i : Nat) (exam : ExamData) (n : Nat), exams[i]? = some exam →
        examNumOf exam = some n →
        (∀ t ∈ rb.tests, ¬ refNumOf t = some n) →
        (mergeReferencesToExams rb exams)[i]? = some exam) ∧
    (∀ (i : Nat) (exam : ExamData) (n : Nat) (r : ReferenceData),
        exams[i]? = some exam → examNumOf exam = some n →
        rb.tests.find? (fun t => refNumOf t == some n) = some r →
        (mergeReferencesToExams rb exams)[i]?
          = some { exam with sections := exam.sections.map (mergeSection r) }) := by
  refine ⟨?_, ?_, ?_⟩
  · intro i exam hi hnone
    unfold mergeReferencesToExams
    rw [List.getElem?_map, hi, Option.map_some', mergeExam_of_none rb exam hnone]
  · intro i exam n hi hn hno
    unfold mergeReferencesToExams
    have hf : rb.tests.find? (fun t => refNumOf t == some n) = none := by
      rw [List.find?_eq_none]
      intro t ht
      simpa using hno t ht
    rw [List.getElem?_map, hi, Option.map_some', mergeExam_of_no_match rb exam n hn hf]
  · intro i exam n r hi hn hf
    unfold mergeReferencesToExams
    rw [List.getElem?_map, hi, Option.map_some', mergeExam_of_match rb exam n r hn hf]

/-- C4 witness: the number-less exam `examC4` passes through reconciliation
unchanged. -/
theorem C4_witness :
    (mergeReferencesToExams batchC4 [examC4])[0]? = some examC4 :=
  (C4_match_or_skip batchC4 [examC4]).1 0 examC4 rfl (by decide)

/-- C10: in the per-question script assignment, a listening section whose
title contains `"section a"` only in a different casing (never the exact
`"Section A"`) does not receive the double `tapescript`/`explanation`
assignment: the question's `tapescript` is unchanged and the matched content
falls through to the length-based classification. -/
theorem C10_sectionA_case_sensitive
    (rb : ReferenceBatch) (exams : List ExamData) (i j k : Nat)
    (exam : ExamData) (sec : ExamSection) (q : Question)
    (n : Nat) (refData : ReferenceData) (sk content : String)
    (hi : exams[i]? = some exam)
    (hn : examNumOf exam = some n)
    (hf : rb.tests.find? (fun t => refNumOf t == some n) = some refData)
    (hj : exam.sections[j]? = some sec)
    (hk : sec.questions[k]? = some q)
    (hli : isListeningSection sec = true)
    (_hlower : jsIncludes (jsToLower sec.title) "section a" = true)
    (hSA : jsIncludes sec.title "Section A" = false)
    (hsk : specificScriptKeyOf refData (toString q.number) = some sk)
    (hc : lookupStr refData.tapescripts sk = some content) :
    ((questionAt (mergeReferencesToExams rb exams) i j k).map (·.tapescript)
        = some q.tapescript) ∧
    (content.length > 50 →
       (questionAt (mergeReferencesToExams rb exams) i j k).map
           (fun x => (x.scriptContext, x.explanation))
         = some (some content, q.explanation)) ∧
    (¬ content.length > 50 →
       (questionAt (mergeReferencesToExams rb exams) i j k).map
           (fun x => (x.scriptContext, x.explanation))
         = some (q.scriptContext, some content)) := by
  have hq := questionAt_merge rb exams i j k exam sec q n refData hi hn hf hj hk
  have hsk' : specificScriptKeyOf refData
      (toString (mergeAnswerStep refData (matchedScriptKeyOf refData sec.title)
        (isWritingSection sec) q).number) = some sk := by
    rw [mergeAnswerStep_number]; exact hsk
  have hcond : (isListeningSection sec && jsIncludes sec.title "Section A") = false := by
    rw [hli, hSA]
    rfl
  refine ⟨?_, fun hlen => ?_, fun hlen => ?_⟩
  · rw [hq, Option.map_some']
    by_cases hlen : content.length > 50
    · unfold mergeQuestion
      rw [mergeScriptStep_of_long refData sec.title (isListeningSection sec) _
          sk content hsk' hc hcond hlen]
      exact congrArg some (mergeAnswerStep_tapescript refData
        (matchedScriptKeyOf refData sec.title) (isWritingSection sec) q)
    · unfold mergeQuestion
      rw [mergeScriptStep_of_short refData sec.title (isListeningSection sec) _
          sk content hsk' hc hcond hlen]
      exact congrArg some (mergeAnswerStep_tapescript refData
        (matchedScriptKeyOf refData sec.title) (isWritingSection sec) q)
  · rw [hq, Option.map_some']
    unfold mergeQuestion
    rw [mergeScriptStep_of_long refData sec.title (isListeningSection sec) _
        sk content hsk' hc hcond hlen]
    have he := mergeAnswerStep_explanation refData
      (matchedScriptKeyOf refData sec.title) (isWritingSection sec) q
    simp [he]
  · rw [hq, Option.map_some']
    unfold mergeQuestion
    rw [mergeScriptStep_of_short refData sec.title (isListeningSection sec) _
        sk content hsk' hc hcond hlen]
    have hs := mergeAnswerStep_scriptContext refData
      (matchedScriptKeyOf refData sec.title) (isWritingSection sec) q
    simp [hs]

/-- C10 witness: the upper-cased `"PART I LISTENING SECTION A"` section's
long matched script goes to `scriptContext`, and the question's `tapescript`
stays unset. -/
theorem C10_witness :
    (questionAt (mergeReferencesToExams batchC10 [examC10]) 0 0 0).map
        (fun x => (x.scriptContext, x.explanation))
      = some (some "M: This conversation runs well past fifty characters in total length.", none) :=
  (C10_sectionA_case_sensitive batchC10 [examC10] 0 0 0 examC10
      (mkSec "PART I LISTENING SECTION A" [mkQ 5 QuestionType.multipleChoice none])
      (mkQ 5 QuestionType.multipleChoice none) 4 refdC10 "Q5"
      "M: This conversation runs well past fifty characters in total length."
      rfl rfl rfl rfl rfl (by decide) (by decide) (by decide) rfl rfl).2.1 (by decide)

/-- C5 counterexample: `examC5a` has the digit-less non-empty id `"zz"` and
title `"3"`, `examC5b` has id `"x5x"`. Under the claimed key (id digits, else
title digits) the ascending order is `examC5a` (3) before `examC5b` (5), but
the code keys the digit-less non-empty id as 999 and returns them in the
opposite order, so the appended catalog is not sorted by the claimed key. -/
theorem C5_counterexample :
    appendExams [] [examC5a, examC5b] = [examC5b, examC5a] ∧
    claimSortKey examC5a = some 3 ∧ claimSortKey examC5b = some 5 ∧
    ¬ (appendExams [] [examC5a, examC5b]).Pairwise
        (fun a b => claimSortLe a b = true) := by
  refine ⟨by decide, by decide, by decide, ?_⟩
  intro hp
  have hrel : claimSortLe examC5b examC5a = true := by
    have h2 : appendExams [] [examC5a, examC5b] = [examC5b, examC5a] := by decide
    rw [h2] at hp
    exact List.rel_of_pairwise_cons hp (List.mem_singleton.mpr rfl)
  exact absurd hrel (by decide)

/-- C5 (amended): after every append the catalog is sorted ascending by the
key the code uses — the first integer of `id` when `id` is non-empty,
otherwise the first integer of `title`, defaulting to 999 when the chosen
string has no digits; appending `test-10`, `test-2`, `test-1` yields the
order `test-1`, `test-2`, `test-10`. -/
theorem C5_sorted_by_code_key :
    (∀ (prev newExams : List ExamData),
       List.Sorted (fun a b => getNum (idOrTitle a) ≤ getNum (idOrTitle b))
         (appendExams prev newExams)) ∧
    appendExams [] [examT10, examT2, examT1] = [examT1, examT2, examT10] := by
  constructor
  · intro prev newExams
    unfold appendExams
    haveI : IsTotal ExamData (fun a b => getNum (idOrTitle a) ≤ getNum (idOrTitle b)) :=
      ⟨fun a b => Nat.le_total (getNum (idOrTitle a)) (getNum (idOrTitle b))⟩
    haveI : IsTrans ExamData (fun a b => getNum (idOrTitle a) ≤ getNum (idOrTitle b)) :=
      ⟨fun _ _ _ h1 h2 => Nat.le_trans h1 h2⟩
    exact List.sorted_insertionSort _ _
  · decide

theorem jsStartsWith_empty (p : String) (hp : p.toList ≠ []) :
    jsStartsWith "" p = false := by
  unfold jsStartsWith
  rcases hl : p.toList with _ | ⟨c, cs⟩
  · exact absurd hl hp
  · rfl

theorem grading_iff (mu ans : String) :
    ((if (!(mu == "") && !(ans == "")) = true
      then (mu == ans || jsStartsWith ans (mu ++ "."))
      else false) = true)
    ↔ (mu ≠ "" ∧ (mu = ans ∨ jsStartsWith ans (mu ++ ".") = true)) := by
  by_cases hmu : mu = ""
  · subst hmu
    simp
  · by_cases hans : ans = ""
    · subst hans
      have hp : (mu ++ ".").toList ≠ [] := by
        show (mu ++ ".").data ≠ []
        rw [String.data_append]
        simp
      have h1 : jsStartsWith "" (mu ++ ".") = false := jsStartsWith_empty _ hp
      simp [hmu, h1]
    · simp [hmu, hans]

/-- C6: the grading criterion of `handleSubmitExam` coincides with the
specified one — normalize both answers, resolve a long user answer through
`sharedOptions`, then require the resolved answer to be non-empty and either
equal to the normalized correct answer or a `"X."`-style head of it — and the
two concrete examples of the specification grade as correct. -/
theorem C6_grading_criterion :
    (∀ (sec : ExamSection) (q : Question),
        isCorrect sec q = true ↔ specCorrect sec q) ∧
    isCorrect secC6 qC6a = true ∧ isCorrect secC6 qC6b = true := by
  refine ⟨?_, by decide, by decide⟩
  intro sec q
  exact grading_iff (resolveUser sec (jsTrim (jsToLower (q.userAnswer.getD ""))))
    (jsTrim (jsToLower (q.correctAnswer.getD "")))

/-- C7: applying the same reference batch twice leaves every non-writing
question's `correctAnswer` and `tapescript` as after a single application. -/
theorem C7_merge_idempotent_nonwriting :
    ∀ (rb : ReferenceBatch) (exams : List ExamData),
      nwFields (mergeReferencesToExams rb (mergeReferencesToExams rb exams))
        = nwFields (mergeReferencesToExams rb exams) := by
  intro rb exams
  unfold nwFields mergeReferencesToExams
  simp only [List.map_map]
  apply List.map_congr_left
  intro e _
  show (mergeExam rb (mergeExam rb e)).sections.map (fun s => s.questions.map nwProj)
      = (mergeExam rb e).sections.map (fun s => s.questions.map nwProj)
  exact nwExam_merge_idem rb e

/-- C8: reconciliation is a frame-respecting map — the output catalog has the
same length and, once the four per-question fields and the per-section
`tapescript` are erased, is exactly the input catalog (so ids, titles,
section and question order and every other field are unchanged). -/
theorem C8_frame :
    ∀ (rb : ReferenceBatch) (exams : List ExamData),
      (mergeReferencesToExams rb exams).map scrubExam = exams.map scrubExam ∧
      (mergeReferencesToExams rb exams).length = exams.length := by
  intro rb exams
  constructor
  · unfold mergeReferencesToExams
    simp only [List.map_map]
    apply List.map_congr_left
    intro e _
    exact scrubExam_mergeExam rb e
  · unfold mergeReferencesToExams
    exact List.length_map exams (mergeExam rb)

/-- C9: `appendExams` deduplicates only against ids already in the catalog:
two incoming exams sharing a fresh id are both inserted, leaving the catalog
with a duplicated id. -/
theorem C9_dedup_only_preexisting
    (prev : List ExamData) (e1 e2 : ExamData)
    (hid : e2.id = e1.id)
    (hnew : ∀ p ∈ prev, ¬ p.id = e1.id) :
    (appendExams prev [e1, e2]).countP (fun e => e.id == e1.id) = 2 := by
  unfold appendExams
  have hperm := List.perm_insertionSort
    (fun a b => getNum (idOrTitle a) ≤ getNum (idOrTitle b))
    (prev ++ ([e1, e2].filter (fun e => !((prev.map (·.id)).contains e.id))))
  rw [hperm.countP_eq]
  have hne1 : ¬ ∃ a ∈ prev, a.id = e1.id := by
    rintro ⟨a, ha, he⟩
    exact hnew a ha he
  have hne2 : ¬ ∃ a ∈ prev, a.id = e2.id := by
    rintro ⟨a, ha, he⟩
    exact hnew a ha (he.trans hid)
  have hfilter : [e1, e2].filter (fun e => !((prev.map (·.id)).contains e.id)) = [e1, e2] := by
    simp [List.contains, hne1, hne2]
  rw [hfilter, List.countP_append]
  have hp0 : prev.countP (fun e => e.id == e1.id) = 0 := by
    rw [List.countP_eq_zero]
    intro p hp
    simpa using hnew p hp
  rw [hp0]
  simp [List.countP_cons, hid]

/-- C9 witness: two fresh exams with the shared id `"dup"` both enter an empty
catalog. -/
theorem C9_witness :
    (appendExams [] [examC9a, examC9b]).countP (fun e => e.id == "dup") = 2 :=
  C9_dedup_only_preexisting [] examC9a examC9b rfl (by intro p hp; cases hp)

end ExamApp
